import Mathlib

/-!
Shallow embedding of `inst/python/getdata_dem.py` (dataharvester).

The script downloads a DEM raster from a WCS endpoint, writes it as a
GeoTIFF, and derives slope/aspect rasters.  Python floats are embedded as
rationals (`ℚ`), byte strings as `String`, the filesystem as an
association list from path to content, and the remote WCS service and
OS-level failure points as an explicit environment record.  Exceptions are
embedded with `Except Unit`: `.error ()` means the Python call raised an
uncaught exception, `.ok v` means it returned value `v`.
-/

namespace Dataharvester

/-- Embeds Python `s.replace(a, b)` for a single-character pattern and a
single-character replacement: every occurrence of the character `a` in `s`
is replaced by `b` (for one-character patterns, occurrences never overlap,
so this is a character-wise map). -/
def pyReplaceChar (s : String) (a b : Char) : String :=
  ⟨s.data.map (fun c => if c = a then b else c)⟩

/-- Embeds `posixpath.basename` on the character list of the path:
`p[p.rfind(sep) + 1 :]`, i.e. the longest slash-free suffix. -/
def posixBasenameL (p : List Char) : List Char :=
  (p.reverse.takeWhile (fun c => c ≠ '/')).reverse

/-- The prefix `p[: p.rfind(sep) + 1]` used by `posixpath.dirname`:
everything up to and including the last slash (empty if no slash). -/
def posixHeadL (p : List Char) : List Char :=
  (p.reverse.dropWhile (fun c => c ≠ '/')).reverse

/-- Embeds `posixpath.dirname` on the character list of the path:
`head = p[: p.rfind(sep) + 1]`; if `head` is nonempty and not entirely
slashes, trailing slashes are stripped from it. -/
def posixDirnameL (p : List Char) : List Char :=
  let head := posixHeadL p
  if head ≠ [] ∧ ¬ head.all (fun c => c = '/') then
    (head.reverse.dropWhile (fun c => c = '/')).reverse
  else head

/-- Embeds `posixpath.join(a, b)` for two components: if `b` is absolute it
wins; otherwise `b` is appended to `a`, inserting a slash unless `a` is
empty or already ends with one. -/
def posixJoinL (a b : List Char) : List Char :=
  if b.head? = some '/' then b
  else if a = [] ∨ a.getLast? = some '/' then a ++ b
  else a ++ '/' :: b

/-- `os.path.basename` on strings. -/
def posixBasename (p : String) : String := ⟨posixBasenameL p.data⟩

/-- `os.path.dirname` on strings. -/
def posixDirname (p : String) : String := ⟨posixDirnameL p.data⟩

/-- `os.path.join` on strings. -/
def posixJoin (a b : String) : String := ⟨posixJoinL a.data b.data⟩

/-- The record built by `get_metadict`: the Python dict with keys
`title`, `description`, `crs`, `bbox`, `resolution_arcsec`. -/
structure Metadict where
  title : String
  description : String
  crs : String
  bbox : List ℚ
  resolution_arcsec : ℚ
deriving DecidableEq, Repr

/-- Embeds `get_metadict()` (getdata_dem.py lines 45-59): a constant
dictionary of metadata for the DEM 1 Second Grid source. -/
def get_metadict : Metadict where
  title := "DEM 1 Second Grid"
  description := "Digital Elevation Model (DEM) of Australia derived from STRM with 1 Second Grid - Hydrologically Enforced."
  crs := "EPSG:4326"
  bbox := [112.99986111100009, -44.0001388895483, 153.9998611116614, -10.000138888999906]
  resolution_arcsec := 1

/-- The record returned by `getdict_license` (lines 61-74). -/
structure LicenseDict where
  name : String
  source_url : String
  license : String
  license_title : String
  license_url : String
  copyright : String
  attribution : String
deriving DecidableEq, Repr

/-- Embeds `getdict_license()`: the constant license/attribution record. -/
def getdict_license : LicenseDict where
  name := "Digital Elevation Model (DEM) of Australia derived from STRM with 1 Second Grid - Hydrologically Enforced"
  source_url := "https://www.clw.csiro.au/aclep/soilandlandscapegrid/ProductDetails.html"
  license := "CC BY 4.0"
  license_title := "Creative Commons Attribution 4.0 International (CC BY 4.0)"
  license_url := "https://creativecommons.org/licenses/by/4.0/"
  copyright := "© Copyright 2017-2022, Geoscience Australia"
  attribution := "Commonwealth of Australia (Geoscience Australia) "

/-- A WCS layer as seen through `owslib`: `wcs[key]` exposes `title`,
`abstract` and `boundingBoxWGS84`. -/
structure Layer where
  title : String
  abstract : String
  boundingBoxWGS84 : List ℚ
deriving DecidableEq, Repr

/-- Embeds `wcs[key]`: first-match lookup of the key in the service's
contents dictionary (Python dict keys are unique, so first match is the
match).  Returns `none` where Python would raise `KeyError`. -/
def wcsGetItem (contents : List (String × Layer)) (key : String) : Option Layer :=
  (contents.find? (fun e => e.1 == key)).map Prod.snd

/-- The four lists returned by `get_capabilities`:
`(keys, title_list, description_list, bbox_list)`. -/
structure Capabilities where
  keys : List String
  title_list : List String
  description_list : List String
  bbox_list : List (List ℚ)
deriving DecidableEq, Repr

/-- Embeds `get_capabilities(url)` (lines 76-118) applied to the contents
dictionary the service answered with: `keys = content.keys()`, and one
title, abstract and WGS84 bounding box is appended per key, in key order,
each obtained by the `wcs[key]` lookup.  The `print` calls are operator
output only and are not modelled.  `wcs[key]` cannot fail here because
every key comes from the contents dictionary itself; the `.getD` default
is never reached. -/
def get_capabilities (contents : List (String × Layer)) : Capabilities where
  keys := contents.map Prod.fst
  title_list := (contents.map Prod.fst).map
    (fun k => ((wcsGetItem contents k).getD ⟨"", "", []⟩).title)
  description_list := (contents.map Prod.fst).map
    (fun k => ((wcsGetItem contents k).getD ⟨"", "", []⟩).abstract)
  bbox_list := (contents.map Prod.fst).map
    (fun k => ((wcsGetItem contents k).getD ⟨"", "", []⟩).boundingBoxWGS84)

/-- The keyword arguments of the `wcs.getCoverage(...)` call
(lines 167-174). -/
structure CoverageRequest where
  identifier : String
  bbox : List ℚ
  format : String
  crs : String
  resx : ℚ
  resy : ℚ
  styles : String
deriving DecidableEq, Repr

/-- The filesystem: an association list from file path to file content,
first entry wins (a later write shadows earlier ones). -/
def FS : Type := List (String × String)

/-- Embeds `os.path.exists`. -/
def fileExists (fs : FS) (p : String) : Bool :=
  (List.find? (fun e => e.1 == p) fs).isSome

/-- Embeds `open(p, 'wb'); f.write(d)`: the new entry shadows any previous
content at `p`. -/
def setFile (fs : FS) (p d : String) : FS :=
  (p, d) :: fs

/-- The environment a run of `getwcs_dem` interacts with: the OS and the
remote WCS service.  `makedirsFails path` says whether `os.makedirs(path,
exist_ok=True)` raises (e.g. the path exists as a regular file);
`connect url` is `WebCoverageService(url, ...)`, returning the service's
contents dictionary or `none` if the connection raises; `getCoverage req`
is the network transfer of `wcs.getCoverage(...)`, returning the response
bytes or `none` if it raises; `writeFails path` says whether opening the
output file for writing raises; `today` is
`datetime.now(timezone.utc).strftime('%Y-%m-%d')`. -/
structure WcsEnv where
  makedirsFails : String → Bool
  connect : String → Option (List (String × Layer))
  getCoverage : CoverageRequest → Option String
  writeFails : String → Bool
  today : String

/-- The observable outcome of one `getwcs_dem` call: `ret` is the Python
return (`.error ()` = an uncaught exception propagated; `.ok none` =
returned `False`; `.ok (some p)` = returned the path `p`), `fs` the
filesystem afterwards, and `requests` the list of `getCoverage` network
transfers the call issued. -/
structure RunResult where
  ret : Except Unit (Option String)
  fs : FS
  requests : List CoverageRequest

/-- The output filename computed at lines 161-162:
`layername.replace(' ', '_') + '_' + date + '.tif'`. -/
def demFilename (layername date : String) : String :=
  pyReplaceChar layername ' ' '_' ++ "_" ++ date ++ ".tif"

/-- The resolution actually used by `getwcs_dem` (lines 152-154): `if
resolution is None: resolution = get_metadict()['resolution_arcsec']`. -/
def effectiveRes (resolution : Option ℚ) : ℚ :=
  match resolution with
  | none => get_metadict.resolution_arcsec
  | some r => r

/-- The keyword arguments passed to `wcs.getCoverage` (lines 167-174):
`identifier='1', bbox=bbox, format='GeoTIFF', crs=crs,
resx=resolution/3600, resy=resolution/3600, Styles='tc'`. -/
def coverageRequest (bbox : List ℚ) (crs : String) (resolution : ℚ) :
    CoverageRequest :=
  ⟨"1", bbox, "GeoTIFF", crs, resolution / 3600, resolution / 3600, "tc"⟩

/-- Embeds `getwcs_dem(outpath, bbox, resolution, url, crs)`
(lines 121-182).  `resolution = none` embeds Python `None`; the default
argument is `some 1`.  Step by step, following the source: substitute the
native resolution if `resolution is None`; `os.makedirs` (outside the
`try` block, so its exception propagates); inside `try`: connect, look up
layer `'1'`, compute the dated output filename, skip the download if the
file exists, otherwise issue the coverage request and write the response;
any exception inside the `try` is caught and `False` is returned. -/
def getwcs_dem (outpath : String) (bbox : List ℚ) (resolution : Option ℚ)
    (url crs : String) (env : WcsEnv) (fs : FS) : RunResult :=
  if env.makedirsFails outpath then ⟨.error (), fs, []⟩
  else
    match env.connect url with
    | none => ⟨.ok none, fs, []⟩
    | some contents =>
      match wcsGetItem contents "1" with
      | none => ⟨.ok none, fs, []⟩
      | some layer =>
        let fname_out := demFilename layer.title env.today
        let outfname := posixJoin outpath fname_out
        if fileExists fs outfname then ⟨.ok (some outfname), fs, []⟩
        else
          let req := coverageRequest bbox crs (effectiveRes resolution)
          match env.getCoverage req with
          | none => ⟨.ok none, fs, [req]⟩
          | some data =>
            if env.writeFails outfname then ⟨.ok none, fs, [req]⟩
            else ⟨.ok (some outfname), setFile fs outfname data, [req]⟩

/-- Embeds `dem2slope(fname_dem)` (lines 199-215), the returned output
path: `os.path.join(os.path.dirname(fname_dem), 'Slope_' +
os.path.basename(fname_dem))`.  The `gdal.DEMProcessing` raster write is
delegated to the external engine and only the path computation is part of
this function's contract. -/
def dem2slope (fname_dem : String) : String :=
  posixJoin (posixDirname fname_dem) ("Slope_" ++ posixBasename fname_dem)

/-- Embeds `dem2aspect(fname_dem)` (lines 217-233), the returned output
path, symmetric to `dem2slope` with the marker `'Aspect_'` before the
filename. -/
def dem2aspect (fname_dem : String) : String :=
  posixJoin (posixDirname fname_dem) ("Aspect_" ++ posixBasename fname_dem)

/-- Modelled from the spec sentence for the filename computation, word for
word: every space in the title is replaced by an underscore, character by
character.  Used to compare the code's `replace`-based computation against
the spec's reading. -/
def spec_replaceSpaces : List Char → List Char
  | [] => []
  | c :: cs => (if c = ' ' then '_' else c) :: spec_replaceSpaces cs

/-- Modelled from the spec sentence: the output filename is the title with
spaces replaced by underscores, then an underscore, then the ISO date,
then the extension `.tif`. -/
def spec_filename (title date : String) : String :=
  ⟨spec_replaceSpaces title.data⟩ ++ "_" ++ date ++ ".tif"

/-- A concrete healthy environment: the service answers with one layer
keyed `'1'` titled `A B`, the coverage request succeeds, and no OS call
fails.  Used to witness the hypothetical theorems on concrete inputs. -/
def envDemo : WcsEnv where
  makedirsFails := fun _ => false
  connect := fun _ => some [("1", ⟨"A B", "layer one", [1, 2, 3, 4]⟩)]
  getCoverage := fun _ => some "BYTES"
  writeFails := fun _ => false
  today := "2000-01-01"

/-- A concrete environment in which `os.makedirs` raises (for example the
output path exists as a regular file). -/
def envFail : WcsEnv where
  makedirsFails := fun _ => true
  connect := fun _ => none
  getCoverage := fun _ => none
  writeFails := fun _ => true
  today := "2000-01-01"

/-- A concrete two-layer contents dictionary with distinct keys, as a
service could answer a capabilities query. -/
def demoContents : List (String × Layer) :=
  [("1", ⟨"A B", "first layer", [1, 2, 3, 4]⟩),
   ("2", ⟨"C D", "second layer", [5, 6, 7, 8]⟩)]

/-! Helper lemmas about the path functions, the lookup, and the
filesystem. -/

theorem takeWhile_append_all {p : Char → Bool} {l1 l2 : List Char}
    (h : ∀ a ∈ l1, p a) :
    (l1 ++ l2).takeWhile p = l1 ++ l2.takeWhile p := by
  induction l1 with
  | nil => simp
  | cons a t ih =>
    simp only [List.cons_append, List.takeWhile_cons]
    rw [h a (by simp)]
    simp [ih (fun b hb => h b (by simp [hb]))]

theorem dropWhile_append_all {p : Char → Bool} {l1 l2 : List Char}
    (h : ∀ a ∈ l1, p a) :
    (l1 ++ l2).dropWhile p = l2.dropWhile p := by
  induction l1 with
  | nil => simp
  | cons a t ih =>
    simp only [List.cons_append, List.dropWhile_cons]
    rw [h a (by simp)]
    simp [ih (fun b hb => h b (by simp [hb]))]

/-- The basename of `x ++ '/' :: fl` is `fl` when `fl` is slash-free. -/
theorem posixBasenameL_append (x fl : List Char) (hf : ∀ c ∈ fl, c ≠ '/') :
    posixBasenameL (x ++ '/' :: fl) = fl := by
  unfold posixBasenameL
  rw [List.reverse_append, List.reverse_cons, List.append_assoc]
  rw [takeWhile_append_all (by simp; intro a ha; exact hf a (by simp [ha]))]
  simp

/-- The slice up to and including the last slash of `x ++ '/' :: fl` is
`x ++ ['/']` when `fl` is slash-free. -/
theorem posixHeadL_append (x fl : List Char) (hf : ∀ c ∈ fl, c ≠ '/') :
    posixHeadL (x ++ '/' :: fl) = x ++ ['/'] := by
  unfold posixHeadL
  rw [List.reverse_append, List.reverse_cons, List.append_assoc]
  rw [dropWhile_append_all (by simp; intro a ha; exact hf a (by simp [ha]))]
  simp

/-- The dirname of `x ++ '/' :: fl` is `x` (or the root slash when `x` is
empty), when `fl` is slash-free and `x` does not end in a slash. -/
theorem posixDirnameL_append (x fl : List Char) (hf : ∀ c ∈ fl, c ≠ '/')
    (hx : x.getLast? ≠ some '/') :
    posixDirnameL (x ++ '/' :: fl) = if x = [] then ['/'] else x := by
  unfold posixDirnameL
  rw [posixHeadL_append x fl hf]
  by_cases hxe : x = []
  · subst hxe
    simp
  · rw [if_neg hxe]
    obtain ⟨c, r, hrev⟩ : ∃ c r, x.reverse = c :: r := by
      cases hr : x.reverse with
      | nil => exact absurd (by simpa using congrArg List.reverse hr) hxe
      | cons c r => exact ⟨c, r, rfl⟩
    have hc : c ≠ '/' := by
      intro hcs
      apply hx
      rw [← List.head?_reverse, hrev, hcs]
      simp
    rw [if_pos]
    · have h1 : (x ++ ['/']).reverse = '/' :: c :: r := by simp [hrev]
      rw [h1]
      have hd : ('/' :: c :: r).dropWhile (fun ch => ch = '/') = c :: r := by
        simp [List.dropWhile_cons, hc]
      rw [hd, ← hrev, List.reverse_reverse]
    · constructor
      · simp
      · intro hall
        rw [List.all_eq_true] at hall
        have hcmem : c ∈ x ++ ['/'] := by
          have : c ∈ x.reverse := by rw [hrev]; simp
          simp at this
          simp [this]
        exact hc (by simpa using hall c hcmem)

theorem head?_append_ne (pre fl : List Char) (hpre : pre.head? ≠ some '/')
    (hf : ∀ c ∈ fl, c ≠ '/') : (pre ++ fl).head? ≠ some '/' := by
  cases pre with
  | nil =>
    cases fl with
    | nil => simp
    | cons c t =>
      simp only [List.nil_append, List.head?_cons, ne_eq, Option.some.injEq]
      exact hf c (by simp)
  | cons p t => simpa using hpre

/-- The shared path computation of `dem2slope` and `dem2aspect`: joining
the dirname of `X ++ "/" ++ f` with a marker followed by its basename
gives `X ++ "/" ++ (marker ++ f)`, whenever `f` is slash-free, `X` does
not end in a slash, and the marker does not start with a slash. -/
theorem derivative_path (X f pre : String) (hX : X.data.getLast? ≠ some '/')
    (hf : ∀ c ∈ f.data, c ≠ '/') (hpre : pre.data.head? ≠ some '/') :
    posixJoin (posixDirname (X ++ "/" ++ f)) (pre ++ posixBasename (X ++ "/" ++ f))
      = X ++ "/" ++ (pre ++ f) := by
  have hdata : (X ++ "/" ++ f).data = X.data ++ '/' :: f.data := by
    rw [String.data_append, String.data_append, List.append_assoc]
    rfl
  have hbase : posixBasename (X ++ "/" ++ f) = ⟨f.data⟩ := by
    unfold posixBasename
    rw [hdata, posixBasenameL_append _ _ hf]
  have hdir : posixDirname (X ++ "/" ++ f) =
      ⟨if X.data = [] then ['/'] else X.data⟩ := by
    unfold posixDirname
    rw [hdata, posixDirnameL_append _ _ hf hX]
  rw [hbase, hdir]
  have hpf : (pre ++ (⟨f.data⟩ : String)).data = pre.data ++ f.data := by
    rw [String.data_append]
  have hbhead : (pre.data ++ f.data).head? ≠ some '/' := head?_append_ne _ _ hpre hf
  apply String.ext
  unfold posixJoin posixJoinL
  rw [hpf]
  rw [if_neg hbhead]
  by_cases hxe : X.data = []
  · rw [if_pos hxe]
    rw [if_pos]
    · show ['/'] ++ (pre.data ++ f.data) = (X ++ "/" ++ (pre ++ f)).data
      rw [String.data_append, String.data_append, String.data_append, hxe,
        List.append_assoc]
      rfl
    · right
      simp [hxe]
  · rw [if_neg hxe]
    rw [if_neg]
    · show X.data ++ '/' :: (pre.data ++ f.data) = (X ++ "/" ++ (pre ++ f)).data
      rw [String.data_append, String.data_append, String.data_append,
        List.append_assoc]
      rfl
    · push_neg
      exact ⟨hxe, hX⟩

/-- Character-wise replacement of spaces agrees with the spec's recursive
description. -/
theorem map_spec_replaceSpaces (l : List Char) :
    l.map (fun c => if c = ' ' then '_' else c) = spec_replaceSpaces l := by
  induction l with
  | nil => rfl
  | cons c t ih => simp only [List.map_cons, spec_replaceSpaces, ih]

/-- In an association list with pairwise-distinct keys, searching for the
key of the `i`-th entry finds exactly the `i`-th entry. -/
theorem find?_map_fst_nodup (l : List (String × Layer))
    (hl : (l.map Prod.fst).Nodup) (i : Nat) (hi : i < l.length) :
    l.find? (fun e => e.1 == l[i].1) = some l[i] := by
  induction l generalizing i with
  | nil => simp at hi
  | cons hd tl ih =>
    cases i with
    | zero => simp
    | succ j =>
      have hj : j < tl.length := by simpa using hi
      have hne : hd.1 ≠ tl[j].1 := by
        intro he
        have hmem : tl[j].1 ∈ tl.map Prod.fst :=
          List.mem_map.mpr ⟨tl[j], List.getElem_mem hj, rfl⟩
        rw [List.map_cons, List.nodup_cons] at hl
        exact hl.1 (he ▸ hmem)
      have hfun : (fun e => e.1 == (hd :: tl)[j + 1].1)
          = (fun e : String × Layer => e.1 == tl[j].1) := by
        simp
      rw [hfun, List.find?_cons_of_neg _ (by simpa using hne)]
      exact ih (by rw [List.map_cons, List.nodup_cons] at hl; exact hl.2) j hj

/-- A file just written is seen by `os.path.exists`. -/
theorem fileExists_setFile (fs : FS) (p d : String) :
    fileExists (setFile fs p d) p = true := by
  simp [fileExists, setFile, List.find?]

/-! The claims. -/

/-- C1 (amended): once `os.makedirs` has succeeded, `getwcs_dem` never
raises — every exception point inside the `try` block (connecting to the
service, resolving the title of layer `'1'`, the coverage request, writing
the file) makes it return `False` instead.  An exception raised by the
directory creation itself propagates, because `os.makedirs` at line 156
stands before the `try` block: that part of the original claim fails, see
the counterexample. -/
theorem C1_no_raise_inside_try (outpath : String) (bbox : List ℚ)
    (resolution : Option ℚ) (url crs : String) (env : WcsEnv) (fs : FS)
    (h : env.makedirsFails outpath = false) :
    (getwcs_dem outpath bbox resolution url crs env fs).ret ≠ Except.error () ∧
    (env.connect url = none →
      (getwcs_dem outpath bbox resolution url crs env fs).ret = Except.ok none) ∧
    (∀ contents, env.connect url = some contents →
      wcsGetItem contents "1" = none →
      (getwcs_dem outpath bbox resolution url crs env fs).ret = Except.ok none) ∧
    (∀ contents layer, env.connect url = some contents →
      wcsGetItem contents "1" = some layer →
      fileExists fs (posixJoin outpath (demFilename layer.title env.today)) = false →
      env.getCoverage (coverageRequest bbox crs (effectiveRes resolution)) = none →
      (getwcs_dem outpath bbox resolution url crs env fs).ret = Except.ok none) ∧
    (∀ contents layer data, env.connect url = some contents →
      wcsGetItem contents "1" = some layer →
      fileExists fs (posixJoin outpath (demFilename layer.title env.today)) = false →
      env.getCoverage (coverageRequest bbox crs (effectiveRes resolution)) = some data →
      env.writeFails (posixJoin outpath (demFilename layer.title env.today)) = true →
      (getwcs_dem outpath bbox resolution url crs env fs).ret = Except.ok none) := by
  refine ⟨?_, ?_, ?_, ?_, ?_⟩
  · simp only [getwcs_dem, h, Bool.false_eq_true, if_false]
    split <;> try simp
    split <;> try simp
    split <;> try simp
    split <;> try simp
    split <;> simp
  · intro hc
    simp [getwcs_dem, h, hc]
  · intro contents hc hg
    simp [getwcs_dem, h, hc, hg]
  · intro contents layer hc hg hex hcov
    simp [getwcs_dem, h, hc, hg, hex, hcov]
  · intro contents layer data hc hg hex hcov hw
    simp [getwcs_dem, h, hc, hg, hex, hcov, hw]

/-- C1, witness: in the healthy concrete environment the call does not
raise. -/
theorem C1_no_raise_inside_try_witness :
    (getwcs_dem "o" [] none "u" "c" envDemo []).ret ≠ Except.error () :=
  (C1_no_raise_inside_try "o" [] none "u" "c" envDemo [] rfl).1

/-- C1, counterexample to the claim as stated: in a concrete environment
where directory creation raises, `getwcs_dem` raises (the result is the
propagated exception), and in particular does not return `False`. -/
theorem C1_makedirs_raises_counterexample :
    envFail.makedirsFails "out" = true ∧
    (getwcs_dem "out" [] (some 1) "u" "c" envFail []).ret = Except.error () ∧
    (getwcs_dem "out" [] (some 1) "u" "c" envFail []).ret ≠ Except.ok none :=
  ⟨rfl, rfl, fun hcontra => Except.noConfusion hcontra⟩

/-- C2: if a first call downloaded the file (it returned a path and issued
exactly one coverage transfer), then a second call with identical
parameters and the same environment (hence the same UTC day) finds the
file already existing: it returns the same path, leaves the filesystem
untouched (the file is not overwritten), issues no coverage request, and
the two calls together perform exactly one network transfer. -/
theorem C2_second_call_idempotent (outpath : String) (bbox : List ℚ)
    (resolution : Option ℚ) (url crs : String) (env : WcsEnv) (fs : FS) (p : String)
    (h1 : (getwcs_dem outpath bbox resolution url crs env fs).ret = Except.ok (some p))
    (h2 : (getwcs_dem outpath bbox resolution url crs env fs).requests.length = 1) :
    (getwcs_dem outpath bbox resolution url crs env
        (getwcs_dem outpath bbox resolution url crs env fs).fs).ret
      = Except.ok (some p) ∧
    (getwcs_dem outpath bbox resolution url crs env
        (getwcs_dem outpath bbox resolution url crs env fs).fs).fs
      = (getwcs_dem outpath bbox resolution url crs env fs).fs ∧
    (getwcs_dem outpath bbox resolution url crs env
        (getwcs_dem outpath bbox resolution url crs env fs).fs).requests = [] ∧
    (getwcs_dem outpath bbox resolution url crs env fs).requests.length +
      (getwcs_dem outpath bbox resolution url crs env
        (getwcs_dem outpath bbox resolution url crs env fs).fs).requests.length
      = 1 := by
  cases hmk : env.makedirsFails outpath with
  | true => simp [getwcs_dem, hmk] at h1
  | false =>
  cases hc : env.connect url with
  | none => simp [getwcs_dem, hmk, hc] at h1
  | some contents =>
  cases hg : wcsGetItem contents "1" with
  | none => simp [getwcs_dem, hmk, hc, hg] at h1
  | some layer =>
  cases hex : fileExists fs (posixJoin outpath (demFilename layer.title env.today)) with
  | true => simp [getwcs_dem, hmk, hc, hg, hex] at h2
  | false =>
  cases hcov : env.getCoverage (coverageRequest bbox crs (effectiveRes resolution)) with
  | none => simp [getwcs_dem, hmk, hc, hg, hex, hcov] at h1
  | some data =>
  cases hw : env.writeFails (posixJoin outpath (demFilename layer.title env.today)) with
  | true => simp [getwcs_dem, hmk, hc, hg, hex, hcov, hw] at h1
  | false =>
    have hp : p = posixJoin outpath (demFilename layer.title env.today) := by
      simp [getwcs_dem, hmk, hc, hg, hex, hcov, hw] at h1
      exact h1.symm
    subst hp
    simp [getwcs_dem, hmk, hc, hg, hex, hcov, hw, fileExists_setFile]

/-- C2, witness: a concrete successful download followed by a rerun on the
resulting filesystem. -/
theorem C2_second_call_idempotent_witness :
    (getwcs_dem "o" [] (some 100) "u" "c" envDemo
        ((getwcs_dem "o" [] (some 100) "u" "c" envDemo []).fs)).ret
      = Except.ok (some "o/A_B_2000-01-01.tif") ∧
    (getwcs_dem "o" [] (some 100) "u" "c" envDemo
        ((getwcs_dem "o" [] (some 100) "u" "c" envDemo []).fs)).fs
      = (getwcs_dem "o" [] (some 100) "u" "c" envDemo []).fs ∧
    (getwcs_dem "o" [] (some 100) "u" "c" envDemo
        ((getwcs_dem "o" [] (some 100) "u" "c" envDemo []).fs)).requests = [] ∧
    (getwcs_dem "o" [] (some 100) "u" "c" envDemo []).requests.length +
      (getwcs_dem "o" [] (some 100) "u" "c" envDemo
        ((getwcs_dem "o" [] (some 100) "u" "c" envDemo []).fs)).requests.length
      = 1 :=
  C2_second_call_idempotent "o" [] (some 100) "u" "c" envDemo [] _ rfl rfl

/-- C3: for every layer title and every date string, the output filename
computed by the code equals the title with each space replaced by an
underscore, then an underscore, then the date, then `.tif` — the spec's
formula; being a function of title and date only, the computation is
reproducible byte for byte. -/
theorem C3_filename_formula (title date : String) :
    demFilename title date = spec_filename title date := by
  unfold demFilename spec_filename pyReplaceChar
  rw [map_spec_replaceSpaces]

/-- C4: for a directory path `X` (not ending in a slash, so that `X/f` is
the standard composition) and a filename `f` (slash-free), `dem2slope`
maps `X/f` to `X/Slope_f` and `dem2aspect` maps it to `X/Aspect_f`. -/
theorem C4_derivative_naming (X f : String) (hX : X.data.getLast? ≠ some '/')
    (hf : ∀ c ∈ f.data, c ≠ '/') :
    dem2slope (X ++ "/" ++ f) = X ++ "/" ++ ("Slope_" ++ f) ∧
    dem2aspect (X ++ "/" ++ f) = X ++ "/" ++ ("Aspect_" ++ f) :=
  ⟨derivative_path X f "Slope_" hX hf (by decide),
   derivative_path X f "Aspect_" hX hf (by decide)⟩

/-- C4, witness: the spec's own example instance. -/
theorem C4_derivative_naming_witness :
    dem2slope "X/dem.tif" = "X/Slope_dem.tif" ∧
    dem2aspect "X/dem.tif" = "X/Aspect_dem.tif" :=
  C4_derivative_naming "X" "dem.tif" (by decide) (by decide)

/-- C5: the metadata record documents a native resolution of 1 arc-second,
and a call of `getwcs_dem` with `resolution = None` behaves exactly — same
return, same filesystem, same issued requests — like a call with the
record's resolution field passed explicitly. -/
theorem C5_resolution_substitution :
    get_metadict.resolution_arcsec = 1 ∧
    ∀ (outpath : String) (bbox : List ℚ) (url crs : String) (env : WcsEnv) (fs : FS),
      getwcs_dem outpath bbox none url crs env fs
        = getwcs_dem outpath bbox (some get_metadict.resolution_arcsec) url crs env fs :=
  ⟨rfl, fun _ _ _ _ _ _ => rfl⟩

/-- C6: every coverage request issued by `getwcs_dem` with an explicit
resolution `r` carries `resx = resy = r / 3600`, format `GeoTIFF`, and the
caller's bounding box and CRS unchanged (and the fixed identifier `'1'`). -/
theorem C6_request_fields (outpath : String) (bbox : List ℚ) (r : ℚ)
    (url crs : String) (env : WcsEnv) (fs : FS) (req : CoverageRequest)
    (hreq : req ∈ (getwcs_dem outpath bbox (some r) url crs env fs).requests) :
    req.resx = r / 3600 ∧ req.resy = r / 3600 ∧ req.format = "GeoTIFF" ∧
    req.bbox = bbox ∧ req.crs = crs ∧ req.identifier = "1" := by
  simp only [getwcs_dem] at hreq
  split at hreq
  · simp at hreq
  · split at hreq
    · simp at hreq
    · split at hreq
      · simp at hreq
      · split at hreq
        · simp at hreq
        · have hr : req = coverageRequest bbox crs (effectiveRes (some r)) := by
            split at hreq
            · simpa using hreq
            · split at hreq <;> simpa using hreq
          subst hr
          simp [coverageRequest, effectiveRes]

/-- C6, witness: the request issued by a concrete successful download with
resolution 100 arc-seconds. -/
theorem C6_request_fields_witness :
    (⟨"1", [], "GeoTIFF", "c", 100 / 3600, 100 / 3600, "tc"⟩ : CoverageRequest).resx
      = 100 / 3600 ∧
    (⟨"1", [], "GeoTIFF", "c", 100 / 3600, 100 / 3600, "tc"⟩ : CoverageRequest).resy
      = 100 / 3600 ∧
    (⟨"1", [], "GeoTIFF", "c", 100 / 3600, 100 / 3600, "tc"⟩ : CoverageRequest).format
      = "GeoTIFF" ∧
    (⟨"1", [], "GeoTIFF", "c", 100 / 3600, 100 / 3600, "tc"⟩ : CoverageRequest).bbox
      = [] ∧
    (⟨"1", [], "GeoTIFF", "c", 100 / 3600, 100 / 3600, "tc"⟩ : CoverageRequest).crs
      = "c" ∧
    (⟨"1", [], "GeoTIFF", "c", 100 / 3600, 100 / 3600, "tc"⟩ : CoverageRequest).identifier
      = "1" :=
  C6_request_fields "o" [] 100 "u" "c" envDemo [] _ (List.Mem.head _)

/-- C7 (amended): `get_metadict` is a constant record whose CRS is
`EPSG:4326` and whose native resolution is 1 arc-second; its default
bounding box is `[112.99986111100009, -44.0001388895483,
153.9998611116614, -10.000138888999906]` (approximately, but not equal to,
the four-decimal values stated in the claim). -/
theorem C7_metadict_values :
    get_metadict.crs = "EPSG:4326" ∧
    get_metadict.resolution_arcsec = 1 ∧
    get_metadict.bbox = [112.99986111100009, -44.0001388895483,
      153.9998611116614, -10.000138888999906] :=
  ⟨rfl, rfl, rfl⟩

/-- C7, counterexample to the claim as stated: the bounding box stored in
the record is not the rounded `[112.9999, -44.0001, 153.9999, -10.0001]`
of the claim. -/
theorem C7_bbox_counterexample :
    get_metadict.bbox ≠ [112.9999, -44.0001, 153.9999, -10.0001] := by
  simp only [get_metadict]
  norm_num

/-- C8: when the service reports pairwise-distinct layer identifiers (a
dictionary invariant), the `i`-th element of each list returned by
`get_capabilities` is the identifier, title, abstract and bounding box of
the `i`-th reported layer, in the service's order. -/
theorem C8_capabilities_order (contents : List (String × Layer))
    (h : (contents.map Prod.fst).Nodup) (i : Nat) (hi : i < contents.length) :
    (get_capabilities contents).keys[i]? = some contents[i].1 ∧
    (get_capabilities contents).title_list[i]? = some contents[i].2.title ∧
    (get_capabilities contents).description_list[i]? = some contents[i].2.abstract ∧
    (get_capabilities contents).bbox_list[i]? = some contents[i].2.boundingBoxWGS84 := by
  have hkey : (contents.map Prod.fst)[i]? = some contents[i].1 := by
    rw [List.getElem?_map, List.getElem?_eq_getElem hi]
    rfl
  have hitem : wcsGetItem contents contents[i].1 = some contents[i].2 := by
    unfold wcsGetItem
    rw [find?_map_fst_nodup contents h i hi]
    rfl
  refine ⟨hkey, ?_, ?_, ?_⟩ <;>
    simp [get_capabilities, List.getElem?_map, List.getElem?_eq_getElem hi, hitem]

/-- C8, witness: a concrete two-layer service, queried at index 1. -/
theorem C8_capabilities_order_witness :
    (get_capabilities demoContents).keys[1]? = some "2" ∧
    (get_capabilities demoContents).title_list[1]? = some "C D" ∧
    (get_capabilities demoContents).description_list[1]? = some "second layer" ∧
    (get_capabilities demoContents).bbox_list[1]? = some [5, 6, 7, 8] :=
  C8_capabilities_order demoContents (by decide) 1 (by decide)

/-- C9: the four collections returned by `get_capabilities` all have the
length of the contents dictionary — one entry per reported identifier. -/
theorem C9_capabilities_lengths (contents : List (String × Layer)) :
    (get_capabilities contents).keys.length = contents.length ∧
    (get_capabilities contents).title_list.length = contents.length ∧
    (get_capabilities contents).description_list.length = contents.length ∧
    (get_capabilities contents).bbox_list.length = contents.length := by
  simp [get_capabilities]

/-- C10: whenever `getwcs_dem` returns a path (not the failure sentinel
`False` and not an exception), that path is `os.path.join` of the caller's
output directory with a filename ending in `.tif`. -/
theorem C10_output_path_shape (outpath : String) (bbox : List ℚ)
    (resolution : Option ℚ) (url crs : String) (env : WcsEnv) (fs : FS) (p : String)
    (h : (getwcs_dem outpath bbox resolution url crs env fs).ret = Except.ok (some p)) :
    ∃ pre : String, p = posixJoin outpath (pre ++ ".tif") := by
  simp only [getwcs_dem] at h
  split at h
  · simp at h
  · split at h
    · simp at h
    · split at h
      · simp at h
      · split at h
        · simp only [Except.ok.injEq, Option.some.injEq] at h
          exact ⟨_, h.symm⟩
        · split at h
          · simp at h
          · split at h
            · simp at h
            · simp only [Except.ok.injEq, Option.some.injEq] at h
              exact ⟨_, h.symm⟩

/-- C10, witness: the concrete successful download returns a `.tif` path
joined under the requested output directory. -/
theorem C10_output_path_shape_witness :
    ∃ pre : String, "o/A_B_2000-01-01.tif" = posixJoin "o" (pre ++ ".tif") :=
  C10_output_path_shape "o" [] (some 100) "u" "c" envDemo []
    "o/A_B_2000-01-01.tif" rfl

end Dataharvester
